import Mathlib

/- Verification development for the obsidian-github-media-uploader plugin
(src/main.js). The plugin's upload workflow is embedded shallowly: JavaScript
strings become Lean String (a structure over List Char), the editor buffer
becomes an explicit pre/post cursor pair, the five persisted settings become a
record of strings, and the two external effects of an upload attempt - the
base64 encoding of the pasted file and the HTTP PUT to the GitHub contents
API - become explicit inputs (an Except value for the encoder, a Transport
value for the network). Every definition translates the corresponding
JavaScript from src/main.js; source line numbers are cited in doc comments. -/

/- Section 1: JavaScript string primitives used by the plugin. -/

/-- Replace the first occurrence of `pat` in the list with `repl`, the list
form of JavaScript String.prototype.replace with a plain-string pattern
(used at src/main.js lines 96, 120 and 132): only the first occurrence is
replaced, and the input is returned unchanged when `pat` does not occur.
As in JavaScript, an empty pattern matches at position 0. -/
def replaceFirstList (pat repl : List Char) : List Char → List Char
  | [] => if pat.isEmpty then repl else []
  | c :: rest =>
    if pat.isPrefixOf (c :: rest) then repl ++ (c :: rest).drop pat.length
    else c :: replaceFirstList pat repl rest

/-- String form of `replaceFirstList`: models `s.replace(pat, repl)`. -/
def jsReplaceFirst (s pat repl : String) : String :=
  String.mk (replaceFirstList pat.data repl.data s.data)

/-- Substring test on lists: some position of `s` starts an occurrence of
`pat`. -/
def containsSub (pat s : List Char) : Bool :=
  (List.range (s.length + 1)).any (fun i => pat.isPrefixOf (s.drop i))

/-- Models JavaScript `s.includes(pat)` (src/main.js lines 53 and 119). -/
def jsIncludes (s pat : String) : Bool := containsSub pat.data s.data

/-- An occurrence of `pat` starts at position `i` of `s`. -/
def occursAtL (pat s : List Char) (i : Nat) : Bool := pat.isPrefixOf (s.drop i)

/-- Number of positions of `s` at which an occurrence of `pat` starts
(occurrences may overlap). -/
def occCountL (pat s : List Char) : Nat :=
  ((List.range (s.length + 1)).filter (fun i => occursAtL pat s i)).length

/-- String form of `occursAtL`. -/
def occursAt (pat s : String) (i : Nat) : Bool := occursAtL pat.data s.data i

/-- String form of `occCountL`: the number of occurrences of `pat` in `s`. -/
def occCount (pat s : String) : Nat := occCountL pat.data s.data

/-- Replace every maximal run of whitespace by one hyphen; the accumulator
records whether the previous character was whitespace. -/
def squashWsAux : Bool → List Char → List Char
  | _, [] => []
  | prevWs, c :: rest =>
    if c.isWhitespace then
      if prevWs then squashWsAux true rest
      else '-' :: squashWsAux true rest
    else c :: squashWsAux false rest

/-- Models the file-name sanitization `name.replace(/\s+/g, '-')` of
src/main.js line 105: each maximal whitespace run becomes a single hyphen
(the JavaScript class \s is approximated by Char.isWhitespace). -/
def sanitizeName (s : String) : String := String.mk (squashWsAux false s.data)

/-- Models JavaScript `s.trim()`: whitespace is removed from both ends. -/
def jsTrim (s : String) : String :=
  String.mk (((s.data.dropWhile Char.isWhitespace).reverse.dropWhile
    Char.isWhitespace).reverse)

/-- Models `folder.endsWith('/') ? folder.slice(0, -1) : folder`
(src/main.js line 108): a single trailing slash is removed. -/
def stripTrailingSlash (s : String) : String :=
  if s.data.getLast? = some '/' then String.mk s.data.dropLast else s

/-- Models JavaScript `s.startsWith(pat)` (src/main.js line 114). -/
def jsStartsWith (s pat : String) : Bool := pat.data.isPrefixOf s.data

/- Section 2: the data model. -/

/-- The active note's text buffer together with the cursor (an empty
selection): the document text is `pre ++ post` and the cursor sits between
the two parts. -/
structure Editor where
  pre : String
  post : String
deriving DecidableEq

/-- Models `editor.getValue()`: the whole document text. -/
def Editor.getValue (ed : Editor) : String := ed.pre ++ ed.post

/-- Models `editor.replaceSelection(s)`: `s` is inserted at the cursor and
the cursor ends after the inserted text. -/
def Editor.replaceSelection (ed : Editor) (s : String) : Editor :=
  ⟨ed.pre ++ s, ed.post⟩

/-- Models `editor.setValue(v)`: the whole buffer is replaced by `v`. -/
def Editor.setValue (_ed : Editor) (v : String) : Editor := ⟨v, ""⟩

/-- A captured media item (the `fileObj` of src/main.js line 74): `isFile`
records whether it is a DOM File (paste path), in which case `base64` is
absent and the payload is encoded by fileToBase64. -/
structure FileObj where
  name : String
  type : String
  size : Nat
  base64 : Option String
  isFile : Bool
deriving DecidableEq

/-- The plugin settings (DEFAULT_SETTINGS of src/main.js lines 3-9). -/
structure Settings where
  githubUser : String
  githubRepo : String
  githubToken : String
  folderPath : String
  branch : String
deriving DecidableEq

/-- A JavaScript error value as the plugin observes it: its `message` and the
optional `status` field that obsidian's requestUrl attaches to HTTP errors. -/
structure JsError where
  message : String
  status : Option Nat
deriving DecidableEq

/-- The user-visible notices processUpload can emit (obsidian.Notice calls at
src/main.js lines 77, 87, 125 and 130), identified by kind; the oversize
notice's formatted megabyte figure is omitted. -/
inductive Notice where
  | fileTooBig
  | configureSettings
  | uploaded (fileName : String)
  | uploadFailed (message : String)
deriving DecidableEq

/-- The network environment of one upload attempt: either the HTTP PUT
completes with a status code, or it fails at the transport level with an
error message and no status. -/
inductive Transport where
  | response (status : Nat)
  | netFailure (message : String)
deriving DecidableEq

/-- Everything observable about one processUpload call: the final editor
state, the returned boolean, whether the HTTP request was issued, and the
notices shown. -/
structure UploadResult where
  editor : Editor
  success : Bool
  httpCalled : Bool
  notices : List Notice
deriving DecidableEq

/-- Everything observable about one handleFileCreate call: whether the
upload pipeline ran, whether the vault file was deleted, and the final
editor state. -/
structure CreateResult where
  processed : Bool
  deleted : Bool
  editor : Editor
deriving DecidableEq

/-- A vault file as handleFileCreate sees it (src/main.js line 39). -/
structure TFile where
  name : String
  extension : String
  size : Nat
deriving DecidableEq

/- Section 3: the upload workflow of src/main.js. -/

/-- 25 MiB: `sizeInMB > 25` at src/main.js line 76 with
`sizeInMB = size / (1024*1024)`. For sizes below 2^53 the floating-point
division by the power of two is exact enough that the comparison agrees
with `25 * 1024 * 1024 < size` on integers. -/
def sizeLimitBytes : Nat := 25 * 1024 * 1024

/-- The in-flight placeholder of src/main.js line 91, whose token is the
Date.now() timestamp at insertion time. -/
def mkPlaceholder (name : String) (ts : Nat) : String :=
  "![Uploading " ++ name ++ "...](" ++ toString ts ++ ")"

/-- The failure marker of src/main.js line 132. -/
def failedMarker (name : String) : String :=
  "[Upload Failed: " ++ name ++ "]"

/-- The remote file name of src/main.js line 105: timestamp, hyphen,
sanitized item name. -/
def mkFileName (ts : Nat) (name : String) : String :=
  toString ts ++ "-" ++ sanitizeName name

/-- The remote path of src/main.js lines 107-109: the trimmed folder setting
with a trailing slash stripped, then a slash and the file name; just the
file name when the folder is empty. -/
def mkPath (folderSetting : String) (ts : Nat) (name : String) : String :=
  let folder := stripTrailingSlash (jsTrim folderSetting)
  if folder = "" then mkFileName ts name
  else folder ++ "/" ++ mkFileName ts name

/-- The raw-content URL of src/main.js line 113. -/
def rawUrl (user repo branch path : String) : String :=
  "https://raw.githubusercontent.com/" ++ user ++ "/" ++ repo ++ "/" ++
    branch ++ "/" ++ path

/-- The embed of src/main.js line 116: image markup for image MIME types,
an inline video tag otherwise. -/
def mkEmbed (mime url : String) : String :=
  if jsStartsWith mime ("image/") then "![](" ++ url ++ ")"
  else "<video src=\"" ++ url ++ "\" controls></video>"

/-- src/main.js lines 100-103: use the item's own base64 payload when
present; otherwise, for a DOM File, the result of fileToBase64 (the input
`enc`, which may be an encoding failure); otherwise the payload stays
undefined. -/
def resolveBase64 (f : FileObj) (enc : Except JsError String) :
    Except JsError (Option String) :=
  match f.base64 with
  | some b => Except.ok (some b)
  | none => if f.isFile then enc.map some else Except.ok none

/-- Models obsidian.requestUrl with its default options as the plugin calls
it (src/main.js line 154): the promise resolves with the response for an
HTTP status below 400 and rejects for a status of 400 or above with an
error that carries the status (its message names the status code); a
transport-level failure rejects with no status. -/
def requestUrlPut (t : Transport) : Except JsError Nat :=
  match t with
  | Transport.response s =>
    if 400 ≤ s then
      Except.error ⟨"Request failed, status " ++ toString s, some s⟩
    else Except.ok s
  | Transport.netFailure m => Except.error ⟨m, none⟩

/-- The try/catch of uploadToGithub (src/main.js lines 153-177): a resolved
response with a status other than 200/201 raises `GitHub Status {s}` inside
the try, and the catch translates a caught error by its `status` field -
404, 401 and 413 get their dedicated messages, anything else is rethrown. -/
def githubPutResult (t : Transport) : Except JsError Unit :=
  let attempt : Except JsError Unit :=
    match requestUrlPut t with
    | Except.error e => Except.error e
    | Except.ok status =>
      if status ≠ 200 ∧ status ≠ 201 then
        Except.error ⟨"GitHub Status " ++ toString status, none⟩
      else Except.ok ()
  match attempt with
  | Except.ok _ => Except.ok ()
  | Except.error e =>
    if e.status = some 404 then
      Except.error ⟨"Repo not found (404). Check Username/Repo.", none⟩
    else if e.status = some 401 then
      Except.error ⟨"Invalid Token (401).", none⟩
    else if e.status = some 413 then
      Except.error ⟨"File too large (413).", none⟩
    else Except.error e

/-- uploadToGithub of src/main.js lines 150-178. The request itself is an
external effect: its outcome is the Transport input, so the result does not
depend on the credential and body arguments, which only shape the request. -/
def uploadToGithub (_user _repo _token _branch _path : String)
    (_content : Option String) (t : Transport) : Except JsError Unit :=
  githubPutResult t

/-- The placeholder insertion of src/main.js lines 92-97: at the cursor on
the paste path, by substring replacement of the host's own embed link on the
fallback path, and not at all when the fallback link is absent. -/
def insertPlaceholder (ed : Editor) (isPasteEvent : Bool)
    (linkToReplace : Option String) (ph : String) : Editor :=
  if isPasteEvent then ed.replaceSelection ph
  else
    match linkToReplace with
    | some l => ed.setValue (jsReplaceFirst ed.getValue l ph)
    | none => ed

/-- processUpload of src/main.js lines 74-135. `nowPh` and `nowName` are the
two Date.now() readings (lines 91 and 105), `enc` the outcome of
fileToBase64 and `t` the outcome of the HTTP PUT. -/
def processUpload (f : FileObj) (ed : Editor) (isPasteEvent : Bool)
    (linkToReplace : Option String) (settings : Settings)
    (nowPh nowName : Nat) (enc : Except JsError String) (t : Transport) :
    UploadResult :=
  if sizeLimitBytes < f.size then
    ⟨ed, false, false, [Notice.fileTooBig]⟩
  else
    let user := jsTrim settings.githubUser
    let repo := jsTrim settings.githubRepo
    let token := jsTrim settings.githubToken
    let branch := jsTrim settings.branch
    if user = "" ∨ repo = "" ∨ token = "" then
      ⟨ed, false, false, [Notice.configureSettings]⟩
    else
      let placeholder := mkPlaceholder f.name nowPh
      let ed1 := insertPlaceholder ed isPasteEvent linkToReplace placeholder
      match resolveBase64 f enc with
      | Except.error err =>
        ⟨ed1.setValue (jsReplaceFirst ed1.getValue placeholder
            (failedMarker f.name)),
          false, false, [Notice.uploadFailed err.message]⟩
      | Except.ok content =>
        let fileName := mkFileName nowName f.name
        let path := mkPath settings.folderPath nowName f.name
        match uploadToGithub user repo token branch path content t with
        | Except.error err =>
          ⟨ed1.setValue (jsReplaceFirst ed1.getValue placeholder
              (failedMarker f.name)),
            false, true, [Notice.uploadFailed err.message]⟩
        | Except.ok _ =>
          let url := rawUrl user repo branch path
          let embedCode := mkEmbed f.type url
          let cur := ed1.getValue
          let ed2 :=
            if jsIncludes cur placeholder then
              ed1.setValue (jsReplaceFirst cur placeholder embedCode)
            else ed1.replaceSelection embedCode
          ⟨ed2, true, true, [Notice.uploaded fileName]⟩

/-- The image-extension allow-list of src/main.js line 40. -/
def imageExtensions : List String := ["png", "jpg", "jpeg", "gif", "svg", "webp"]

/-- The video-extension allow-list of src/main.js line 41. -/
def videoExtensions : List String := ["mp4", "webm", "mov"]

/-- The host's own embed link for a created file, src/main.js line 52. -/
def mkLinkText (name : String) : String := "![[" ++ name ++ "]]"

/-- The plain file object handleFileCreate builds at src/main.js lines
60-65: base64 payload already present, so it is not a DOM File. -/
def fallbackFileObj (file : TFile) (isImage : Bool) (b64 : String) : FileObj :=
  ⟨file.name, (if isImage then "image/" else "video/") ++ file.extension,
    file.size, some b64, false⟩

/-- handleFileCreate of src/main.js lines 39-72 (the fallback, mobile path).
`activeMarkdownView` abstracts the active-leaf check of line 45, `ed` is the
editor after the fixed settle delay, `b64` the base64 payload read from the
vault. The file is deleted exactly when processUpload returns success. -/
def handleFileCreate (file : TFile) (activeMarkdownView : Bool) (ed : Editor)
    (settings : Settings) (b64 : String) (nowPh nowName : Nat)
    (enc : Except JsError String) (t : Transport) : CreateResult :=
  let isImage := imageExtensions.contains file.extension
  let isVideo := videoExtensions.contains file.extension
  if !isImage && !isVideo then ⟨false, false, ed⟩
  else if !activeMarkdownView then ⟨false, false, ed⟩
  else if !(jsIncludes ed.getValue file.name) then ⟨false, false, ed⟩
  else
    let r := processUpload (fallbackFileObj file isImage b64) ed false
      (some (mkLinkText file.name)) settings nowPh nowName enc t
    ⟨true, r.success, r.editor⟩

/- Section 4: string lemmas. -/

/-- Appending the empty string on the right changes nothing. -/
theorem strAppendEmpty (s : String) : s ++ ("") = s :=
  String.ext (by rw [String.data_append]; exact List.append_nil _)

/-- String length is the length of the character list. -/
theorem strLength (s : String) : s.length = s.data.length := rfl

/-- A prefix of an append that is no longer than the left part is a prefix
of the left part. -/
theorem prefixAppendShort {α : Type} {x y l : List α} (h : l <+: x ++ y)
    (hlen : l.length ≤ x.length) : l <+: x := by
  have h1 := List.prefix_iff_eq_take.mp h
  rw [List.take_append_eq_append_take, Nat.sub_eq_zero_of_le hlen,
    List.take_zero, List.append_nil] at h1
  exact h1 ▸ List.take_prefix _ _

/-- A prefix of an append that is at least as long as the left part starts
with the left part, and its remainder is a prefix of the right part. -/
theorem prefixAppendLong {α : Type} {x y l : List α} (h : l <+: x ++ y)
    (hlen : x.length ≤ l.length) :
    l.take x.length = x ∧ l.drop x.length <+: y := by
  obtain ⟨t, ht⟩ := h
  constructor
  · have h2 := congrArg (List.take x.length) ht
    rw [List.take_append_eq_append_take, Nat.sub_eq_zero_of_le hlen,
      List.take_zero, List.append_nil, List.take_left] at h2
    exact h2
  · have h3 := congrArg (List.drop x.length) ht
    rw [List.drop_append_eq_append_drop, Nat.sub_eq_zero_of_le hlen,
      List.drop_zero, List.drop_left] at h3
    exact ⟨t, h3⟩

/-- Replacing the first occurrence: when the pattern occurs at position
`a.length` and at no earlier position, `replaceFirstList` substitutes
exactly there. -/
theorem replaceFirstList_split (pat repl : List Char) (a b : List Char)
    (hne : pat ≠ [])
    (hfirst : ∀ i, i < a.length →
      pat.isPrefixOf ((a ++ (pat ++ b)).drop i) = false) :
    replaceFirstList pat repl (a ++ (pat ++ b)) = a ++ (repl ++ b) := by
  induction a with
  | nil =>
    simp only [List.nil_append]
    cases pat with
    | nil => exact absurd rfl hne
    | cons c cs =>
      simp only [List.cons_append]
      rw [replaceFirstList]
      have hp : (c :: cs).isPrefixOf (c :: (cs ++ b)) = true := by
        rw [← List.cons_append]
        exact List.isPrefixOf_iff_prefix.mpr (List.prefix_append _ _)
      rw [hp]
      simp only [if_true]
      rw [← List.cons_append, List.drop_left]
  | cons x a' ih =>
    have h0 := hfirst 0 (by simp)
    simp only [List.drop_zero] at h0
    simp only [List.cons_append]
    simp only [List.cons_append] at h0
    rw [replaceFirstList, h0]
    simp only [Bool.false_eq_true, if_false]
    congr 1
    apply ih
    intro i hi
    have h1 := hfirst (i + 1) (by simpa using Nat.succ_lt_succ hi)
    simpa [List.cons_append, List.drop_succ_cons] using h1

/-- String-level replace-first: when the pattern's first occurrence in
`a ++ ph ++ b` is the middle `ph`, the replacement substitutes exactly
there. -/
theorem jsReplaceFirst_split (a ph b repl : String) (hne : ph ≠ "")
    (hfirst : ∀ i, i < a.length → occursAt ph (a ++ ph ++ b) i = false) :
    jsReplaceFirst (a ++ ph ++ b) ph repl = a ++ repl ++ b := by
  apply String.ext
  show replaceFirstList ph.data repl.data (a ++ ph ++ b).data
    = (a ++ repl ++ b).data
  have hd : (a ++ ph ++ b).data = a.data ++ (ph.data ++ b.data) := by
    rw [String.data_append, String.data_append, List.append_assoc]
  have hd2 : (a ++ repl ++ b).data = a.data ++ (repl.data ++ b.data) := by
    rw [String.data_append, String.data_append, List.append_assoc]
  rw [hd, hd2]
  apply replaceFirstList_split
  · intro hc
    exact hne (String.ext hc)
  · intro i hi
    have h1 := hfirst i hi
    unfold occursAt occursAtL at h1
    rw [hd] at h1
    exact h1

/-- The middle part of an append is found by `jsIncludes`. -/
theorem jsIncludes_middle (a ph b : String) :
    jsIncludes (a ++ ph ++ b) ph = true := by
  have hd : (a ++ ph ++ b).data = a.data ++ (ph.data ++ b.data) := by
    rw [String.data_append, String.data_append, List.append_assoc]
  unfold jsIncludes containsSub
  rw [List.any_eq_true]
  refine ⟨a.data.length, ?_, ?_⟩
  · rw [List.mem_range, hd]
    simp only [List.length_append]
    omega
  · rw [hd, List.drop_left]
    exact List.isPrefixOf_iff_prefix.mpr (List.prefix_append _ _)

/-- A suffix is found by `jsIncludes`. -/
theorem jsIncludes_suffix (x y : String) : jsIncludes (x ++ y) y = true := by
  have h := jsIncludes_middle x y ("")
  rwa [strAppendEmpty] at h

/-- The inserted pattern occurs at the insertion position. -/
theorem occursAt_self (ph A B : List Char) :
    occursAtL ph (A ++ (ph ++ B)) A.length = true := by
  unfold occursAtL
  rw [List.drop_left]
  exact List.isPrefixOf_iff_prefix.mpr (List.prefix_append _ _)

/-- When the pattern has no nontrivial self-overlap and occurs in neither
side, the insertion position carries its only occurrence. -/
theorem occursAt_only (ph A B : List Char) (hne : ph ≠ [])
    (hself : ∀ k, k < ph.length → 0 < k → ph.drop k ≠ ph.take (ph.length - k))
    (hA : ¬ ph <:+: A) (hB : ¬ ph <:+: B) (i : Nat)
    (h : occursAtL ph (A ++ (ph ++ B)) i = true) : i = A.length := by
  unfold occursAtL at h
  rw [List.isPrefixOf_iff_prefix] at h
  rcases Nat.lt_trichotomy i A.length with hi | hi | hi
  · exfalso
    rw [List.drop_append_eq_append_drop,
      Nat.sub_eq_zero_of_le (Nat.le_of_lt hi), List.drop_zero] at h
    by_cases hk : ph.length ≤ (A.drop i).length
    · have h2 := prefixAppendShort h hk
      exact hA (h2.isInfix.trans (List.drop_suffix i A).isInfix)
    · push_neg at hk
      have hAd : (A.drop i).length = A.length - i := by simp
      rw [hAd] at hk
      have h2 := (prefixAppendLong h (by rw [hAd]; exact Nat.le_of_lt hk)).2
      rw [hAd] at h2
      have hlen2 : (ph.drop (A.length - i)).length ≤ ph.length := by
        simp
      have h3 := prefixAppendShort h2 hlen2
      have h4 := List.prefix_iff_eq_take.mp h3
      rw [List.length_drop] at h4
      exact hself (A.length - i) hk (by omega) h4
  · exact hi
  · exfalso
    rw [List.drop_append_eq_append_drop,
      List.drop_eq_nil_of_le (Nat.le_of_lt hi), List.nil_append,
      List.drop_append_eq_append_drop] at h
    have hjpos : 0 < i - A.length := by omega
    by_cases hj : ph.length ≤ i - A.length
    · rw [List.drop_eq_nil_of_le (by omega), List.nil_append] at h
      exact hB (h.isInfix.trans (List.drop_suffix _ _).isInfix)
    · push_neg at hj
      rw [Nat.sub_eq_zero_of_le (Nat.le_of_lt hj), List.drop_zero] at h
      have hlen2 : (ph.drop (i - A.length)).length ≤ ph.length := by
        simp
      have h3 := (prefixAppendLong h hlen2).1
      rw [List.length_drop] at h3
      exact hself (i - A.length) hj hjpos h3.symm

/-- Filtering a range for one value below the bound keeps exactly it. -/
theorem filter_beq_range (m n : Nat) (h : m < n) :
    (List.range n).filter (fun i => i == m) = [m] := by
  induction n with
  | zero => omega
  | succ n ih =>
    rw [List.range_succ, List.filter_append]
    by_cases hm : m < n
    · rw [ih hm]
      have h1 : (List.filter (fun i => i == m) [n]) = [] := by
        have h2 : (n == m) = false := by
          simp only [beq_eq_false_iff_ne, ne_eq]
          omega
        simp [List.filter, h2]
      rw [h1, List.append_nil]
    · have hmn : m = n := by omega
      subst hmn
      have h1 : (List.range m).filter (fun i => i == m) = [] := by
        rw [List.filter_eq_nil_iff]
        intro a ha
        rw [List.mem_range] at ha
        simp only [beq_iff_eq]
        omega
      rw [h1, List.nil_append]
      simp [List.filter]

/-- Inserting a fresh, non-self-overlapping pattern between two parts that
do not contain it yields exactly one occurrence. -/
theorem occCountL_unique (ph A B : List Char) (hne : ph ≠ [])
    (hself : ∀ k, k < ph.length → 0 < k → ph.drop k ≠ ph.take (ph.length - k))
    (hA : ¬ ph <:+: A) (hB : ¬ ph <:+: B) :
    occCountL ph (A ++ (ph ++ B)) = 1 := by
  unfold occCountL
  have hpt : ∀ i, occursAtL ph (A ++ (ph ++ B)) i = (i == A.length) := by
    intro i
    by_cases h : i = A.length
    · subst h
      rw [occursAt_self ph A B]
      simp
    · have h1 : occursAtL ph (A ++ (ph ++ B)) i = false :=
        Bool.eq_false_iff.mpr
          (fun hc => h (occursAt_only ph A B hne hself hA hB i hc))
      rw [h1]
      have h2 : (i == A.length) = false := by
        simp only [beq_eq_false_iff_ne, ne_eq]
        exact h
      rw [h2]
  rw [List.filter_congr (fun i _ => hpt i)]
  rw [filter_beq_range _ _ (by simp only [List.length_append]; omega)]
  rfl

/-- getValue after setValue is the set text. -/
theorem getValue_setValue (ed : Editor) (v : String) :
    (ed.setValue v).getValue = v := by
  unfold Editor.setValue Editor.getValue
  exact strAppendEmpty v

/-- getValue after replaceSelection splits around the cursor. -/
theorem getValue_replaceSelection (ed : Editor) (s : String) :
    (ed.replaceSelection s).getValue = ed.pre ++ s ++ ed.post := rfl

/-- The placeholder string is never empty. -/
theorem mkPlaceholder_ne (name : String) (ts : Nat) :
    mkPlaceholder name ts ≠ "" := by
  intro h
  have h1 := congrArg String.length h
  unfold mkPlaceholder at h1
  simp only [String.length_append] at h1
  have e1 : (")" : String).length = 1 := by decide
  have e0 : ("" : String).length = 0 := by decide
  omega

/-- A negative `jsIncludes` answer refutes infix containment. -/
theorem jsIncludes_false_no_occ (s pat : String)
    (h : jsIncludes s pat = false) : ¬ pat.data <:+: s.data := by
  rintro ⟨u, v, huv⟩
  have h1 : jsIncludes s pat = true := by
    unfold jsIncludes containsSub
    rw [List.any_eq_true]
    refine ⟨u.length, ?_, ?_⟩
    · rw [List.mem_range]
      have h2 := congrArg List.length huv
      simp only [List.length_append] at h2
      omega
    · have h3 : s.data.drop u.length = pat.data ++ v := by
        rw [← huv, List.append_assoc, List.drop_left]
      rw [h3]
      exact List.isPrefixOf_iff_prefix.mpr (List.prefix_append _ _)
  rw [h] at h1
  exact Bool.false_ne_true h1

/-- A 200 or 201 response makes uploadToGithub succeed. -/
theorem githubPutResult_ok (s : Nat) (hs : s = 200 ∨ s = 201) :
    githubPutResult (Transport.response s) = Except.ok () := by
  rcases hs with h | h <;> subst h <;> rfl

/-- processUpload on the happy path: checks pass, payload resolves, HTTP
succeeds; the placeholder (when present) is replaced by the embed. -/
theorem processUpload_success_eq (f : FileObj) (ed : Editor) (isPaste : Bool)
    (link : Option String) (settings : Settings) (nowPh nowName : Nat)
    (enc : Except JsError String) (t : Transport) (c : Option String)
    (hsize : ¬ sizeLimitBytes < f.size)
    (hu : jsTrim settings.githubUser ≠ "")
    (hr : jsTrim settings.githubRepo ≠ "")
    (htk : jsTrim settings.githubToken ≠ "")
    (hc : resolveBase64 f enc = Except.ok c)
    (hok : githubPutResult t = Except.ok ()) :
    processUpload f ed isPaste link settings nowPh nowName enc t =
      (let placeholder := mkPlaceholder f.name nowPh
       let ed1 := insertPlaceholder ed isPaste link placeholder
       let url := rawUrl (jsTrim settings.githubUser) (jsTrim settings.githubRepo)
         (jsTrim settings.branch) (mkPath settings.folderPath nowName f.name)
       let embedCode := mkEmbed f.type url
       let ed2 :=
         if jsIncludes ed1.getValue placeholder then
           ed1.setValue (jsReplaceFirst ed1.getValue placeholder embedCode)
         else ed1.replaceSelection embedCode
       ⟨ed2, true, true, [Notice.uploaded (mkFileName nowName f.name)]⟩) := by
  unfold processUpload
  rw [if_neg hsize]
  simp only []
  rw [if_neg (by push_neg; exact ⟨hu, hr, htk⟩)]
  rw [hc]
  simp only [uploadToGithub]
  rw [hok]

/-- processUpload when the base64 encoding fails: the placeholder becomes
the failure marker and no HTTP call is made. -/
theorem processUpload_encError_eq (f : FileObj) (ed : Editor) (isPaste : Bool)
    (link : Option String) (settings : Settings) (nowPh nowName : Nat)
    (enc : Except JsError String) (t : Transport) (e : JsError)
    (hsize : ¬ sizeLimitBytes < f.size)
    (hu : jsTrim settings.githubUser ≠ "")
    (hr : jsTrim settings.githubRepo ≠ "")
    (htk : jsTrim settings.githubToken ≠ "")
    (hc : resolveBase64 f enc = Except.error e) :
    processUpload f ed isPaste link settings nowPh nowName enc t =
      (let placeholder := mkPlaceholder f.name nowPh
       let ed1 := insertPlaceholder ed isPaste link placeholder
       ⟨ed1.setValue (jsReplaceFirst ed1.getValue placeholder
           (failedMarker f.name)),
         false, false, [Notice.uploadFailed e.message]⟩) := by
  unfold processUpload
  rw [if_neg hsize]
  simp only []
  rw [if_neg (by push_neg; exact ⟨hu, hr, htk⟩)]
  rw [hc]

/-- processUpload when the HTTP PUT fails: the placeholder becomes the
failure marker; the HTTP call was made. -/
theorem processUpload_uploadError_eq (f : FileObj) (ed : Editor)
    (isPaste : Bool) (link : Option String) (settings : Settings)
    (nowPh nowName : Nat) (enc : Except JsError String) (t : Transport)
    (c : Option String) (e : JsError)
    (hsize : ¬ sizeLimitBytes < f.size)
    (hu : jsTrim settings.githubUser ≠ "")
    (hr : jsTrim settings.githubRepo ≠ "")
    (htk : jsTrim settings.githubToken ≠ "")
    (hc : resolveBase64 f enc = Except.ok c)
    (he : githubPutResult t = Except.error e) :
    processUpload f ed isPaste link settings nowPh nowName enc t =
      (let placeholder := mkPlaceholder f.name nowPh
       let ed1 := insertPlaceholder ed isPaste link placeholder
       ⟨ed1.setValue (jsReplaceFirst ed1.getValue placeholder
           (failedMarker f.name)),
         false, true, [Notice.uploadFailed e.message]⟩) := by
  unfold processUpload
  rw [if_neg hsize]
  simp only []
  rw [if_neg (by push_neg; exact ⟨hu, hr, htk⟩)]
  rw [hc]
  simp only [uploadToGithub]
  rw [he]

/- Section 5: the claims. -/

/-- C2: every media item larger than 25 MiB is rejected by processUpload
with the oversize notice, no HTTP call, an unchanged document, and a
failure return (src/main.js lines 74-79). -/
theorem c2_oversize_rejected (f : FileObj) (ed : Editor) (isPaste : Bool)
    (link : Option String) (settings : Settings) (nowPh nowName : Nat)
    (enc : Except JsError String) (t : Transport)
    (h : sizeLimitBytes < f.size) :
    processUpload f ed isPaste link settings nowPh nowName enc t
      = ⟨ed, false, false, [Notice.fileTooBig]⟩ := by
  unfold processUpload
  rw [if_pos h]

theorem c2_oversize_witness :
    processUpload ⟨"big.png", "image/png", 26214401, none, true⟩ ⟨"doc", ""⟩
        true none ⟨"u", "r", "t", "", "main"⟩ 1 2 (Except.ok ("QUJD"))
        (Transport.response 201)
      = ⟨⟨"doc", ""⟩, false, false, [Notice.fileTooBig]⟩ :=
  c2_oversize_rejected _ _ _ _ _ _ _ _ _ (by decide)

/-- C3 counterexample: a configuration with an empty user name does not by
itself force the missing-configuration outcome - an oversize item is
rejected by the earlier size check instead (src/main.js checks size before
configuration). -/
theorem c3_counterexample :
    jsTrim (Settings.githubUser ⟨"", "r", "t", "", "main"⟩) = ("") ∧
    processUpload ⟨"big.png", "image/png", 26214401, none, true⟩ ⟨"doc", ""⟩
        true none ⟨"", "r", "t", "", "main"⟩ 1 2 (Except.ok ("QUJD"))
        (Transport.response 201)
      ≠ ⟨⟨"doc", ""⟩, false, false, [Notice.configureSettings]⟩ := by
  constructor
  · decide
  · decide

/-- C3 (amended): for every item within the 25 MiB limit, a configuration
whose user, repo or token is empty after trimming is rejected by
processUpload with the configure notice, no HTTP call, an unchanged
document, and a failure return (src/main.js lines 81-89). -/
theorem c3_missing_config_rejected (f : FileObj) (ed : Editor)
    (isPaste : Bool) (link : Option String) (settings : Settings)
    (nowPh nowName : Nat) (enc : Except JsError String) (t : Transport)
    (hsize : ¬ sizeLimitBytes < f.size)
    (hempty : jsTrim settings.githubUser = "" ∨ jsTrim settings.githubRepo = ""
      ∨ jsTrim settings.githubToken = "") :
    processUpload f ed isPaste link settings nowPh nowName enc t
      = ⟨ed, false, false, [Notice.configureSettings]⟩ := by
  unfold processUpload
  rw [if_neg hsize]
  simp only []
  rw [if_pos hempty]

theorem c3_missing_config_witness :
    processUpload ⟨"p.png", "image/png", 4, none, true⟩ ⟨"doc", ""⟩
        true none ⟨"", "r", "t", "", "main"⟩ 1 2 (Except.ok ("QUJD"))
        (Transport.response 201)
      = ⟨⟨"doc", ""⟩, false, false, [Notice.configureSettings]⟩ :=
  c3_missing_config_rejected _ _ _ _ _ _ _ _ _ (by decide) (Or.inl (by decide))

/-- The catch clause of uploadToGithub as a function of the caught error. -/
theorem githubPutResult_catch (t : Transport) (e : JsError)
    (h : requestUrlPut t = Except.error e) :
    githubPutResult t =
      (if e.status = some 404 then
        Except.error ⟨"Repo not found (404). Check Username/Repo.", none⟩
      else if e.status = some 401 then
        Except.error ⟨"Invalid Token (401).", none⟩
      else if e.status = some 413 then
        Except.error ⟨"File too large (413).", none⟩
      else Except.error e) := by
  unfold githubPutResult
  rw [h]

/-- A resolved non-2xx response below 400 raises the generic status
message, which the catch rethrows unchanged. -/
theorem githubPutResult_low (s : Nat) (h : ¬ 400 ≤ s) (h200 : s ≠ 200)
    (h201 : s ≠ 201) :
    githubPutResult (Transport.response s)
      = Except.error ⟨"GitHub Status " ++ toString s, none⟩ := by
  have h1 : requestUrlPut (Transport.response s) = Except.ok s := by
    unfold requestUrlPut
    simp only []
    rw [if_neg h]
  unfold githubPutResult
  rw [h1]
  simp only []
  rw [if_pos ⟨h200, h201⟩]
  rfl

/-- A rejected response of 400 or above, other than 404/401/413, is
rethrown with the transport's own status message. -/
theorem githubPutResult_high (s : Nat) (h : 400 ≤ s) (h404 : s ≠ 404)
    (h401 : s ≠ 401) (h413 : s ≠ 413) :
    githubPutResult (Transport.response s)
      = Except.error ⟨"Request failed, status " ++ toString s, some s⟩ := by
  have h1 : requestUrlPut (Transport.response s)
      = Except.error ⟨"Request failed, status " ++ toString s, some s⟩ := by
    unfold requestUrlPut
    simp only []
    rw [if_pos h]
  rw [githubPutResult_catch _ _ h1]
  rw [if_neg (by simp [h404]), if_neg (by simp [h401]), if_neg (by simp [h413])]

/-- C4: the HTTP failure mapping of uploadToGithub (src/main.js lines
150-178): a 404 response yields the repository-not-found error, 401 the
invalid-credential error, 413 the payload-too-large error, and every other
non-2xx status yields an error whose message contains that status code. -/
theorem c4_http_status_mapping :
    (∀ u r tk br p c, uploadToGithub u r tk br p c (Transport.response 404)
      = Except.error ⟨"Repo not found (404). Check Username/Repo.", none⟩) ∧
    (∀ u r tk br p c, uploadToGithub u r tk br p c (Transport.response 401)
      = Except.error ⟨"Invalid Token (401).", none⟩) ∧
    (∀ u r tk br p c, uploadToGithub u r tk br p c (Transport.response 413)
      = Except.error ⟨"File too large (413).", none⟩) ∧
    (∀ u r tk br p c s, s ≠ 200 → s ≠ 201 → s ≠ 404 → s ≠ 401 → s ≠ 413 →
      ∃ e, uploadToGithub u r tk br p c (Transport.response s)
          = Except.error e
        ∧ jsIncludes e.message (toString s) = true) := by
  refine ⟨fun u r tk br p c => rfl, fun u r tk br p c => rfl,
    fun u r tk br p c => rfl, ?_⟩
  intro u r tk br p c s h200 h201 h404 h401 h413
  unfold uploadToGithub
  by_cases h4 : 400 ≤ s
  · exact ⟨⟨"Request failed, status " ++ toString s, some s⟩,
      githubPutResult_high s h4 h404 h401 h413, jsIncludes_suffix _ _⟩
  · exact ⟨⟨"GitHub Status " ++ toString s, none⟩,
      githubPutResult_low s h4 h200 h201, jsIncludes_suffix _ _⟩

/-- C5 counterexample: with an empty folder setting the computed path is the
bare file name, not the claimed slash-prefixed form, so the claimed formula
does not hold for every trimmed folder. -/
theorem c5_counterexample :
    mkPath ("") 5 ("a.png")
      ≠ stripTrailingSlash (jsTrim ("")) ++ ("/")
        ++ (toString 5 ++ ("-") ++ sanitizeName ("a.png")) := by
  decide

/-- C5 (amended): when the trimmed folder with a trailing slash stripped is
nonempty, the remote path is that folder, a slash, the timestamp, a hyphen
and the whitespace-sanitized name; with an empty folder the path is the
bare file name; in particular "My Photo.png" under "assets/" at time T
yields assets/T-My-Photo.png (src/main.js lines 105-109). -/
theorem c5_path_construction (folderSetting name : String) (ts : Nat)
    (h : stripTrailingSlash (jsTrim folderSetting) ≠ "") :
    mkPath folderSetting ts name
      = stripTrailingSlash (jsTrim folderSetting) ++ ("/")
        ++ (toString ts ++ ("-") ++ sanitizeName name) ∧
    mkPath ("") ts name = toString ts ++ ("-") ++ sanitizeName name ∧
    mkPath ("assets/") ts ("My Photo.png")
      = ("assets/") ++ toString ts ++ ("-My-Photo.png") := by
  refine ⟨?_, ?_, ?_⟩
  · unfold mkPath mkFileName
    rw [if_neg h]
  · unfold mkPath mkFileName
    rw [if_pos (by decide)]
  · unfold mkPath mkFileName
    have h1 : stripTrailingSlash (jsTrim ("assets/")) = "assets" := by decide
    rw [h1]
    rw [if_neg (by decide)]
    have h2 : sanitizeName ("My Photo.png") = "My-Photo.png" := by decide
    rw [h2]
    have e1 : ("assets" : String) ++ ("/") = "assets/" := by decide
    have e2 : ("-" : String) ++ ("My-Photo.png") = "-My-Photo.png" := by decide
    rw [e1, ← e2]
    simp only [String.append_assoc]

theorem c5_path_witness :
    mkPath ("assets/") 1700000000000 ("My Photo.png")
      = ("assets/") ++ toString 1700000000000 ++ ("-My-Photo.png") :=
  (c5_path_construction ("assets/") ("My Photo.png") 1700000000000
    (by decide)).2.2

/-- C7: on the fallback path a created file is uploaded only when its
extension is allow-listed and the document contains its name; in every
other case the handler leaves the file and the document untouched
(src/main.js lines 39-53). -/
theorem c7_fallback_guard (file : TFile) (amd : Bool) (ed : Editor)
    (settings : Settings) (b64 : String) (nowPh nowName : Nat)
    (enc : Except JsError String) (t : Transport) :
    ((handleFileCreate file amd ed settings b64 nowPh nowName enc t).processed
        = true →
      (imageExtensions.contains file.extension = true
        ∨ videoExtensions.contains file.extension = true)
      ∧ jsIncludes ed.getValue file.name = true) ∧
    ((¬ (imageExtensions.contains file.extension = true
        ∨ videoExtensions.contains file.extension = true))
      ∨ jsIncludes ed.getValue file.name = false →
      handleFileCreate file amd ed settings b64 nowPh nowName enc t
        = ⟨false, false, ed⟩) := by
  by_cases hI : imageExtensions.contains file.extension = true <;>
    by_cases hV : videoExtensions.contains file.extension = true <;>
      by_cases hA : amd = true <;>
        by_cases hInc : jsIncludes ed.getValue file.name = true <;>
          simp [handleFileCreate, hI, hV, hA, hInc,
            Bool.not_eq_true] at * <;>
          simp [hI, hV, hA, hInc]

/-- C10: on the fallback path the vault file is deleted exactly when the
handler ran the upload and processUpload reported success; every failed or
rejected upload leaves the file in place (src/main.js lines 67-71). -/
theorem c10_delete_iff_success (file : TFile) (amd : Bool) (ed : Editor)
    (settings : Settings) (b64 : String) (nowPh nowName : Nat)
    (enc : Except JsError String) (t : Transport) :
    (handleFileCreate file amd ed settings b64 nowPh nowName enc t).deleted
        = true ↔
      ((handleFileCreate file amd ed settings b64 nowPh nowName enc t).processed
          = true
        ∧ (processUpload
            (fallbackFileObj file (imageExtensions.contains file.extension) b64)
            ed false (some (mkLinkText file.name)) settings nowPh nowName enc
            t).success = true) := by
  simp only [handleFileCreate]
  cases hI : imageExtensions.contains file.extension <;>
    cases hV : videoExtensions.contains file.extension <;>
      cases hA : amd <;>
        cases hInc : jsIncludes ed.getValue file.name <;>
          simp [hI, hV, hA, hInc]

/-- C1: on a successful PUT (status 200 or 201) the placeholder - present
exactly once in the document - is replaced exactly once by the embed; the
embed's URL is the raw-content URL built from the trimmed user, repo and
branch and the computed path, rendered as image markup for image MIME
types and as an inline video tag otherwise (src/main.js lines 111-126). -/
theorem c1_success_embeds (f : FileObj) (ed : Editor) (isPaste : Bool)
    (link : Option String) (settings : Settings) (nowPh nowName : Nat)
    (enc : Except JsError String) (s : Nat) (c : Option String) (a b : String)
    (hsize : ¬ sizeLimitBytes < f.size)
    (hu : jsTrim settings.githubUser ≠ "")
    (hr : jsTrim settings.githubRepo ≠ "")
    (htk : jsTrim settings.githubToken ≠ "")
    (hc : resolveBase64 f enc = Except.ok c)
    (hs : s = 200 ∨ s = 201)
    (hsplit : (insertPlaceholder ed isPaste link
        (mkPlaceholder f.name nowPh)).getValue
      = a ++ mkPlaceholder f.name nowPh ++ b)
    (hfirst : ∀ i, i < a.length →
      occursAt (mkPlaceholder f.name nowPh)
        (a ++ mkPlaceholder f.name nowPh ++ b) i = false)
    (honce : jsIncludes b (mkPlaceholder f.name nowPh) = false) :
    (processUpload f ed isPaste link settings nowPh nowName enc
        (Transport.response s)).success = true ∧
    (processUpload f ed isPaste link settings nowPh nowName enc
        (Transport.response s)).editor.getValue
      = a ++ mkEmbed f.type (rawUrl (jsTrim settings.githubUser)
          (jsTrim settings.githubRepo) (jsTrim settings.branch)
          (mkPath settings.folderPath nowName f.name)) ++ b ∧
    (jsStartsWith f.type ("image/") = true →
      mkEmbed f.type (rawUrl (jsTrim settings.githubUser)
          (jsTrim settings.githubRepo) (jsTrim settings.branch)
          (mkPath settings.folderPath nowName f.name))
        = "![](" ++ rawUrl (jsTrim settings.githubUser)
            (jsTrim settings.githubRepo) (jsTrim settings.branch)
            (mkPath settings.folderPath nowName f.name) ++ ")") ∧
    (jsStartsWith f.type ("image/") = false →
      mkEmbed f.type (rawUrl (jsTrim settings.githubUser)
          (jsTrim settings.githubRepo) (jsTrim settings.branch)
          (mkPath settings.folderPath nowName f.name))
        = "<video src=\"" ++ rawUrl (jsTrim settings.githubUser)
            (jsTrim settings.githubRepo) (jsTrim settings.branch)
            (mkPath settings.folderPath nowName f.name)
          ++ "\" controls></video>") ∧
    rawUrl (jsTrim settings.githubUser) (jsTrim settings.githubRepo)
        (jsTrim settings.branch) (mkPath settings.folderPath nowName f.name)
      = "https://raw.githubusercontent.com/" ++ jsTrim settings.githubUser
        ++ "/" ++ jsTrim settings.githubRepo ++ "/" ++ jsTrim settings.branch
        ++ "/" ++ mkPath settings.folderPath nowName f.name := by
  have hok := githubPutResult_ok s hs
  rw [processUpload_success_eq f ed isPaste link settings nowPh nowName enc
    (Transport.response s) c hsize hu hr htk hc hok]
  have hinc : jsIncludes
      (insertPlaceholder ed isPaste link (mkPlaceholder f.name nowPh)).getValue
      (mkPlaceholder f.name nowPh) = true := by
    rw [hsplit]
    exact jsIncludes_middle a (mkPlaceholder f.name nowPh) b
  refine ⟨rfl, ?_, ?_, ?_, rfl⟩
  · simp only []
    rw [if_pos hinc]
    rw [getValue_setValue, hsplit]
    exact jsReplaceFirst_split a (mkPlaceholder f.name nowPh) b _
      (mkPlaceholder_ne f.name nowPh) hfirst
  · intro h
    unfold mkEmbed
    rw [if_pos h]
  · intro h
    unfold mkEmbed
    rw [if_neg (fun hcond => Bool.false_ne_true (h.symm.trans hcond))]

theorem c1_success_witness :
    (processUpload ⟨"p.png", "image/png", 4, some ("Zg=="), false⟩ ⟨"", ""⟩
        true none ⟨"u", "r", "t", "assets", "main"⟩ 7 9 (Except.ok (""))
        (Transport.response 200)).editor.getValue
      = ("") ++ mkEmbed ("image/png") (rawUrl (jsTrim ("u")) (jsTrim ("r"))
          (jsTrim ("main")) (mkPath ("assets") 9 ("p.png"))) ++ ("") :=
  (c1_success_embeds ⟨"p.png", "image/png", 4, some ("Zg=="), false⟩ ⟨"", ""⟩
    true none ⟨"u", "r", "t", "assets", "main"⟩ 7 9 (Except.ok (""))
    200 (some ("Zg==")) ("") ("") (by decide) (by decide)
    (by decide) (by decide) rfl (Or.inl rfl) (by decide) (by decide)
    (by decide)).2.1

/-- C6: when an upload fails after the placeholder was inserted (encoding
error or HTTP error, including transport failures), the placeholder is
replaced by the failure marker, which contains the item's name; the
outcome is failure and the failure notice carries the error message
(src/main.js lines 128-134). -/
theorem c6_failure_marker (f : FileObj) (ed : Editor) (isPaste : Bool)
    (link : Option String) (settings : Settings) (nowPh nowName : Nat)
    (enc : Except JsError String) (t : Transport) (c : Option String)
    (e : JsError) (a b : String)
    (hsize : ¬ sizeLimitBytes < f.size)
    (hu : jsTrim settings.githubUser ≠ "")
    (hr : jsTrim settings.githubRepo ≠ "")
    (htk : jsTrim settings.githubToken ≠ "")
    (hfail : resolveBase64 f enc = Except.error e
      ∨ (resolveBase64 f enc = Except.ok c
          ∧ githubPutResult t = Except.error e))
    (hsplit : (insertPlaceholder ed isPaste link
        (mkPlaceholder f.name nowPh)).getValue
      = a ++ mkPlaceholder f.name nowPh ++ b)
    (hfirst : ∀ i, i < a.length →
      occursAt (mkPlaceholder f.name nowPh)
        (a ++ mkPlaceholder f.name nowPh ++ b) i = false) :
    (processUpload f ed isPaste link settings nowPh nowName enc t).success
      = false ∧
    (processUpload f ed isPaste link settings nowPh nowName enc t).editor.getValue
      = a ++ failedMarker f.name ++ b ∧
    jsIncludes (failedMarker f.name) f.name = true ∧
    (processUpload f ed isPaste link settings nowPh nowName enc t).notices
      = [Notice.uploadFailed e.message] := by
  have hmark : jsIncludes (failedMarker f.name) f.name = true := by
    unfold failedMarker
    exact jsIncludes_middle ("[Upload Failed: ") f.name ("]")
  have hrep : jsReplaceFirst
      (insertPlaceholder ed isPaste link (mkPlaceholder f.name nowPh)).getValue
      (mkPlaceholder f.name nowPh) (failedMarker f.name)
      = a ++ failedMarker f.name ++ b := by
    rw [hsplit]
    exact jsReplaceFirst_split a (mkPlaceholder f.name nowPh) b _
      (mkPlaceholder_ne f.name nowPh) hfirst
  rcases hfail with hce | hco
  · rw [processUpload_encError_eq f ed isPaste link settings nowPh nowName
      enc t e hsize hu hr htk hce]
    refine ⟨rfl, ?_, hmark, rfl⟩
    simp only []
    rw [getValue_setValue, hrep]
  · rw [processUpload_uploadError_eq f ed isPaste link settings nowPh nowName
      enc t c e hsize hu hr htk hco.1 hco.2]
    refine ⟨rfl, ?_, hmark, rfl⟩
    simp only []
    rw [getValue_setValue, hrep]

theorem c6_failure_witness :
    (processUpload ⟨"p.png", "image/png", 4, some ("Zg=="), false⟩ ⟨"", ""⟩
        true none ⟨"u", "r", "t", "", "main"⟩ 7 9 (Except.ok (""))
        (Transport.netFailure ("boom"))).editor.getValue
      = ("") ++ failedMarker ("p.png") ++ ("") :=
  (c6_failure_marker ⟨"p.png", "image/png", 4, some ("Zg=="), false⟩ ⟨"", ""⟩
    true none ⟨"u", "r", "t", "", "main"⟩ 7 9 (Except.ok (""))
    (Transport.netFailure ("boom")) (some ("Zg==")) ⟨"boom", none⟩ ("") ("")
    (by decide) (by decide) (by decide) (by decide) (Or.inr ⟨rfl, rfl⟩)
    (by decide) (by decide)).2.1

/-- C9: when the upload succeeds but the placeholder is no longer present in
the document, the embed is inserted at the editor's current selection
instead, and success is still reported (src/main.js lines 118-123). -/
theorem c9_missing_placeholder (f : FileObj) (ed : Editor)
    (link : Option String) (settings : Settings) (nowPh nowName : Nat)
    (enc : Except JsError String) (s : Nat) (c : Option String)
    (hsize : ¬ sizeLimitBytes < f.size)
    (hu : jsTrim settings.githubUser ≠ "")
    (hr : jsTrim settings.githubRepo ≠ "")
    (htk : jsTrim settings.githubToken ≠ "")
    (hc : resolveBase64 f enc = Except.ok c)
    (hs : s = 200 ∨ s = 201)
    (hmiss : jsIncludes
        (insertPlaceholder ed false link (mkPlaceholder f.name nowPh)).getValue
        (mkPlaceholder f.name nowPh) = false) :
    (processUpload f ed false link settings nowPh nowName enc
        (Transport.response s)).success = true ∧
    (processUpload f ed false link settings nowPh nowName enc
        (Transport.response s)).editor
      = (insertPlaceholder ed false link
          (mkPlaceholder f.name nowPh)).replaceSelection
          (mkEmbed f.type (rawUrl (jsTrim settings.githubUser)
            (jsTrim settings.githubRepo) (jsTrim settings.branch)
            (mkPath settings.folderPath nowName f.name))) ∧
    jsIncludes (processUpload f ed false link settings nowPh nowName enc
        (Transport.response s)).editor.getValue
      (mkEmbed f.type (rawUrl (jsTrim settings.githubUser)
        (jsTrim settings.githubRepo) (jsTrim settings.branch)
        (mkPath settings.folderPath nowName f.name))) = true := by
  have hok := githubPutResult_ok s hs
  rw [processUpload_success_eq f ed false link settings nowPh nowName enc
    (Transport.response s) c hsize hu hr htk hc hok]
  have hneg := fun hcond => Bool.false_ne_true (hmiss.symm.trans hcond)
  refine ⟨rfl, ?_, ?_⟩
  · simp only []
    rw [if_neg hneg]
  · simp only []
    rw [if_neg hneg]
    rw [getValue_replaceSelection]
    exact jsIncludes_middle _ _ _

theorem c9_missing_placeholder_witness :
    jsIncludes (processUpload ⟨"p.png", "image/png", 4, some ("Zg=="), false⟩
        ⟨"doc", ""⟩ false (some ("![[p.png]]")) ⟨"u", "r", "t", "", "main"⟩
        7 9 (Except.ok ("")) (Transport.response 201)).editor.getValue
      (mkEmbed ("image/png") (rawUrl (jsTrim ("u")) (jsTrim ("r"))
        (jsTrim ("main")) (mkPath ("") 9 ("p.png")))) = true :=
  (c9_missing_placeholder ⟨"p.png", "image/png", 4, some ("Zg=="), false⟩
    ⟨"doc", ""⟩ (some ("![[p.png]]")) ⟨"u", "r", "t", "", "main"⟩ 7 9
    (Except.ok ("")) 201 (some ("Zg==")) (by decide) (by decide) (by decide)
    (by decide) rfl (Or.inr rfl) (by decide)).2.2

/-- C8 counterexample: the exactly-one-placeholder invariant fails as an
unconditional statement - if the document already contains the placeholder
text, insertion on the paste path yields two occurrences. -/
theorem c8_counterexample :
    occCount (mkPlaceholder ("a") 5)
      (insertPlaceholder ⟨mkPlaceholder ("a") 5, ""⟩ true none
        (mkPlaceholder ("a") 5)).getValue ≠ 1 := by
  decide

/-- C8 (amended): on the paste path, provided the placeholder text does not
occur in the document on either side of the cursor and has no nontrivial
self-overlap, the document contains exactly one occurrence of the
placeholder after insertion, the anchor for the later replace-in-place
(src/main.js lines 91-97). -/
theorem c8_placeholder_unique (f : FileObj) (ed : Editor) (nowPh : Nat)
    (hself : ∀ k, k < (mkPlaceholder f.name nowPh).length → 0 < k →
      (mkPlaceholder f.name nowPh).data.drop k
        ≠ (mkPlaceholder f.name nowPh).data.take
            ((mkPlaceholder f.name nowPh).length - k))
    (hpre : jsIncludes ed.pre (mkPlaceholder f.name nowPh) = false)
    (hpost : jsIncludes ed.post (mkPlaceholder f.name nowPh) = false) :
    occCount (mkPlaceholder f.name nowPh)
      (insertPlaceholder ed true none (mkPlaceholder f.name nowPh)).getValue
      = 1 := by
  unfold insertPlaceholder
  rw [if_pos rfl]
  unfold Editor.replaceSelection Editor.getValue occCount
  have hd : ((ed.pre ++ mkPlaceholder f.name nowPh) ++ ed.post).data
      = ed.pre.data ++ ((mkPlaceholder f.name nowPh).data ++ ed.post.data) := by
    rw [String.data_append, String.data_append, List.append_assoc]
  rw [hd]
  exact occCountL_unique (mkPlaceholder f.name nowPh).data ed.pre.data
    ed.post.data
    (fun hc => mkPlaceholder_ne f.name nowPh (String.ext hc))
    hself
    (jsIncludes_false_no_occ ed.pre (mkPlaceholder f.name nowPh) hpre)
    (jsIncludes_false_no_occ ed.post (mkPlaceholder f.name nowPh) hpost)

theorem c8_placeholder_witness :
    occCount (mkPlaceholder ("a.png") 7)
      (insertPlaceholder ⟨"hello ", " world"⟩ true none
        (mkPlaceholder ("a.png") 7)).getValue = 1 :=
  c8_placeholder_unique ⟨"a.png", "image/png", 4, some ("Zg=="), false⟩
    ⟨"hello ", " world"⟩ 7 (by decide) (by decide) (by decide)
